import Mathlib

/-!
Verification of `src/inkml_converter_wrapper.py` (class `InkMLConverter`).

The program is a thin orchestration shim around an external converter
process.  We shallowly embed it: file-system paths are character lists
(Python `str`), the file system is the list of paths that currently
exist, a run of the external subprocess is a record of its exit status,
captured output and the set of files it writes, and Python exceptions
become an explicit error type returned through `Except`.
-/

namespace InkMLWrapper

/-- A path, i.e. a Python string, as its list of characters. -/
abbrev Path := List Char

/-- Coerce a Lean string literal to the `Path` representation. -/
def str (s : String) : Path := s.data

/-- The Python exceptions the wrapper can raise:
`FileNotFoundError` (constructor check), the generic
`Exception("Conversion failed: ...")` raised on nonzero exit status,
and `OSError` (from `os.rename` on a missing source file). -/
inductive PyError where
  | fileNotFound (msg : Path)
  | conversionFailed (msg : Path)
  | osError (msg : Path)
deriving DecidableEq

/-- The message text of an exception (Python `str(e)`). -/
def errText : PyError → Path
  | .fileNotFound m => m
  | .conversionFailed m => m
  | .osError m => m

/-- One run of the external converter subprocess
(`subprocess.run(["npx", "tsx", script, txt_file_path], capture_output=True,
text=True, check=True)`): its exit status, the captured streams, and the
files the external process writes to the file system. -/
structure ExtRun where
  returncode : Int
  stdout : Path
  stderr : Path
  produces : List Path
deriving DecidableEq

-- ## Last-occurrence splitting (Python rsplit / pathlib name and suffix)

/-- Split a character list at the LAST occurrence of `sep`:
`some (before, after)` with the separator removed, `none` if `sep`
does not occur. -/
def splitLastBy (sep : Char) : List Char → Option (List Char × List Char)
  | [] => none
  | c :: cs =>
    match splitLastBy sep cs with
    | some (a, b) => some (c :: a, b)
    | none => if c = sep then some ([], cs) else none

/-- Python `s.rsplit('.', 1)[0]`: everything before the last dot, or the
whole string when it has no dot. -/
def pyRsplitDotHead (p : Path) : Path :=
  match splitLastBy '.' p with
  | some (a, _) => a
  | none => p

/-- The output path computed at line 44 of the source:
`txt_file_path.rsplit('.', 1)[0] + '.inkml'`. -/
def derivedOutput (txt_file_path : Path) : Path :=
  pyRsplitDotHead txt_file_path ++ str ".inkml"

/-- The final name component of a path string: everything after the last
slash (pathlib `Path(p).name` for the normalized path strings the code
passes around). -/
def finalName (p : Path) : Path :=
  match splitLastBy '/' p with
  | some (_, b) => b
  | none => p

/-- Python `PurePath.with_suffix('.inkml')` applied to a (nonempty) file
name `n`: with `i` the index of the last dot of `n`, the name has a
suffix iff `0 < i < len(n) - 1`, in which case `n[:i] + '.inkml'` is
returned; otherwise `'.inkml'` is appended to the whole name. -/
def withSuffixInkml (n : Path) : Path :=
  match splitLastBy '.' n with
  | some (a, b) => if a ≠ [] ∧ b ≠ [] then a ++ str ".inkml" else n ++ str ".inkml"
  | none => n ++ str ".inkml"

-- ## Lemmas about last-occurrence splitting

theorem splitLastBy_of_not_mem (sep : Char) (p : List Char) (h : sep ∉ p) :
    splitLastBy sep p = none := by
  induction p with
  | nil => rfl
  | cons c cs ih =>
    simp only [List.mem_cons, not_or] at h
    simp [splitLastBy, ih h.2, Ne.symm h.1]

theorem not_mem_of_splitLastBy_none (sep : Char) (p : List Char)
    (h : splitLastBy sep p = none) : sep ∉ p := by
  induction p with
  | nil => simp
  | cons c cs ih =>
    simp only [splitLastBy] at h
    rcases hs : splitLastBy sep cs with _ | ⟨a, b⟩
    · rw [hs] at h
      simp only [List.mem_cons, not_or]
      refine ⟨?_, ih hs⟩
      intro hc
      rw [if_pos hc.symm] at h
      exact Option.noConfusion h
    · rw [hs] at h
      exact Option.noConfusion h

theorem splitLastBy_append (sep : Char) (q cs : List Char) (h : sep ∉ cs) :
    splitLastBy sep (q ++ sep :: cs) = some (q, cs) := by
  induction q with
  | nil => simp [splitLastBy, splitLastBy_of_not_mem sep cs h]
  | cons c q ih => simp [splitLastBy, ih]

theorem splitLastBy_eq_some (sep : Char) (p a b : List Char)
    (h : splitLastBy sep p = some (a, b)) : p = a ++ sep :: b ∧ sep ∉ b := by
  induction p generalizing a b with
  | nil => exact Option.noConfusion h
  | cons c cs ih =>
    simp only [splitLastBy] at h
    rcases hs : splitLastBy sep cs with _ | ⟨a', b'⟩
    · rw [hs] at h
      by_cases hc : c = sep
      · rw [if_pos hc] at h
        simp only [Option.some.injEq, Prod.mk.injEq] at h
        obtain ⟨ha, hb⟩ := h
        subst ha
        subst hb
        subst hc
        exact ⟨rfl, not_mem_of_splitLastBy_none c cs hs⟩
      · rw [if_neg hc] at h
        exact Option.noConfusion h
    · rw [hs] at h
      simp only [Option.some.injEq, Prod.mk.injEq] at h
      obtain ⟨ha, hb⟩ := h
      obtain ⟨hcs, hnb⟩ := ih a' b' hs
      subst ha
      subst hb
      exact ⟨by simp [hcs], hnb⟩

theorem pyRsplitDotHead_append (q cs : List Char) (h : ('.' : Char) ∉ cs) :
    pyRsplitDotHead (q ++ '.' :: cs) = q := by
  simp [pyRsplitDotHead, splitLastBy_append '.' q cs h]

theorem finalName_append (d n : List Char) (h : ('/' : Char) ∉ n) :
    finalName (d ++ '/' :: n) = n := by
  simp [finalName, splitLastBy_append '/' d n h]

theorem finalName_of_no_slash (p : List Char) (h : ('/' : Char) ∉ p) :
    finalName p = p := by
  simp [finalName, splitLastBy_of_not_mem '/' p h]

-- ## Path normalization (pathlib `Path(...)` construction and `/` joining)

/-- Split a character list at every occurrence of `sep`. -/
def splitAll (sep : Char) : List Char → List (List Char)
  | [] => [[]]
  | c :: cs =>
    match splitAll sep cs with
    | [] => []
    | h :: t => if c = sep then [] :: h :: t else (c :: h) :: t

/-- Whether the path string is absolute (starts with a slash). -/
def isAbs (p : Path) : Bool :=
  match p with
  | '/' :: _ => true
  | _ => false

/-- The components pathlib keeps: slash-separated pieces with empty
pieces and lone-dot pieces dropped (`Path("a//./b/") == Path("a/b")`). -/
def pathComps (p : Path) : List Path :=
  (splitAll '/' p).filter (fun c => decide (c ≠ [] ∧ c ≠ ['.']))

/-- Render an (absolute?, components) pair back to the string pathlib
prints: `Path("")` and `Path(".")` print as `.`, the root prints as
`/`. -/
def renderPath (abs : Bool) (cs : List Path) : Path :=
  match cs with
  | [] => if abs then str "/" else str "."
  | _ => (if abs then str "/" else []) ++ List.intercalate (str "/") cs

/-- The string `str(Path(p))`: pathlib's normalization of a raw path
string at construction time. -/
def normPath (p : Path) : Path := renderPath (isAbs p) (pathComps p)

/-- The string `str(Path(d) / n)` for an already-normalized directory
string `d` and a file name `n`. -/
def pathJoin (d n : Path) : Path := normPath (d ++ '/' :: n)

/-- The chain of parent paths of a normalized path (fueled recursion on
the path length; each step strips the part after the last slash).  The
root and the current directory have no parents to create. -/
def ancestorPaths : Nat → Path → List Path
  | 0, _ => []
  | fuel + 1, p =>
    match splitLastBy '/' p with
    | some (a, _) => if a = [] then [] else a :: ancestorPaths fuel a
    | none => []

/-- All parent paths of `p`, outermost last. -/
def ancestors (p : Path) : List Path := ancestorPaths p.length p

/-- `Path(p).mkdir(parents=True, exist_ok=True)` on the directory set:
the directory and all its parents exist afterwards, and nothing is
removed (`exist_ok=True` never fails on an existing directory). -/
def mkdirParents (p : Path) (dirs : List Path) : List Path :=
  p :: ancestors p ++ dirs

-- ## File-system primitives

/-- `os.rename(old, new)`: fails with `OSError` when the source does not
exist, otherwise moves it (silently replacing any file at `new`). -/
def os_rename (fs : List Path) (old new : Path) : Except PyError (List Path) :=
  if old ∈ fs then .ok (new :: fs.filter (fun q => decide ¬(q = old)))
  else .error (.osError (str "rename: no such file: " ++ old))

/-- Lines 79-80 of the source: `if os.path.exists(temp): os.remove(temp)`. -/
def removeIfExists (p : Path) (fs : List Path) : List Path :=
  if p ∈ fs then fs.filter (fun q => decide ¬(q = p)) else fs

theorem not_mem_removeIfExists (p : Path) (fs : List Path) :
    p ∉ removeIfExists p fs := by
  unfold removeIfExists
  split
  · intro hm
    have := (List.mem_filter.1 hm).2
    simp at this
  · exact fun hm => (by assumption : ¬p ∈ fs) hm

-- ## The wrapper's operations

/-- Lines 18-25 of the source, `InkMLConverter.__init__`: resolve the
converter script (`converter_script_path or str(script_dir /
"convert_txt_to_inkml.ts")` — note that Python's `or` treats the empty
string like an omitted argument) and raise `FileNotFoundError` when the
resolved script does not exist.  Returns the stored
`self.converter_script` on success.  No subprocess is involved: the
signature shows the constructor cannot attempt a conversion. -/
def InkMLConverter_init (converter_script_path : Option Path)
    (script_dir : Path) (fs : List Path) : Except PyError Path :=
  let default_script := pathJoin (normPath script_dir) (str "convert_txt_to_inkml.ts")
  let converter_script :=
    match converter_script_path with
    | some p => if p = [] then default_script else p
    | none => default_script
  if converter_script ∈ fs then .ok converter_script
  else .error (.fileNotFound (str "Converter script not found: " ++ converter_script))

/-- Lines 37-48 of the source, `InkMLConverter.convert_txt_to_inkml`:
run the external converter (`check=True` raises `CalledProcessError`
exactly when the exit status is nonzero), and on success return the
path computed by `txt_file_path.rsplit('.', 1)[0] + '.inkml'` — no
check that the file exists.  The subprocess may write files (its
`produces` set) whether or not it exits cleanly.  The `except` clause
re-raises as `Exception(f"Conversion failed: \x7be.stderr\x7d")`. -/
def convert_txt_to_inkml (run : ExtRun) (fs : List Path)
    (txt_file_path : Path) : Except PyError Path × List Path :=
  let fs1 := run.produces ++ fs
  if run.returncode = 0 then
    (.ok (derivedOutput txt_file_path), fs1)
  else
    (.error (.conversionFailed (str "Conversion failed: " ++ run.stderr)), fs1)

/-- The `try:` body of `convert_from_string` (lines 66-76): convert the
temporary file; with a truthy `output_filename`, rename the result to
`temp_file_path.rsplit('.', 1)[0] + '_' + output_filename + '.inkml'`.
Errors (from conversion or the rename) propagate out. -/
def convert_from_string_core (run : ExtRun) (temp_file_path : Path)
    (output_filename : Option Path) (fs : List Path) :
    Except PyError Path × List Path :=
  match convert_txt_to_inkml run fs temp_file_path with
  | (.error e, fs1) => (.error e, fs1)
  | (.ok inkml_path, fs1) =>
    match output_filename with
    | none => (.ok inkml_path, fs1)
    | some name =>
      if name = [] then (.ok inkml_path, fs1)
      else
        let new_inkml_path :=
          pyRsplitDotHead temp_file_path ++ '_' :: (name ++ str ".inkml")
        match os_rename fs1 inkml_path new_inkml_path with
        | .ok fs2 => (.ok new_inkml_path, fs2)
        | .error e => (.error e, fs1)

/-- Lines 50-80 of the source, `InkMLConverter.convert_from_string`:
`NamedTemporaryFile(suffix='.txt', delete=False)` writes the content to
a fresh `temp_file_path`; the `try` body converts (and possibly
renames); the `finally` clause removes the temporary file on every exit
path, normal or exceptional.  The written content does not affect the
path-level state. -/
def convert_from_string (run : ExtRun) (temp_file_path txt_content : Path)
    (output_filename : Option Path) (fs : List Path) :
    Except PyError Path × List Path :=
  let fs0 := temp_file_path :: fs
  let r := convert_from_string_core run temp_file_path output_filename fs0
  (r.1, removeIfExists temp_file_path r.2)

/-- The `output_path` of lines 93-94:
`Path(output_dir) if output_dir else input_path` (again `if output_dir`
is Python truthiness, so the empty string falls back to the input
directory). -/
def resolvedOutputPath (input_dir : Path) (output_dir : Option Path) : Path :=
  match output_dir with
  | some d => if d = [] then normPath input_dir else normPath d
  | none => normPath input_dir

/-- The derived batch output path for one file when relocating:
`output_path / txt_file.with_suffix('.inkml').name` (line 105). -/
def batchFinalPath (output_path txt_file : Path) : Path :=
  pathJoin output_path (withSuffixInkml (finalName txt_file))

/-- The name appended to `inkml_files` for one successful file: the
relocated path when the output directory differs from the input
directory, otherwise the converter's derived output path. -/
def batchOutName (input_path output_path txt_file : Path) : Path :=
  if output_path ≠ input_path then batchFinalPath output_path txt_file
  else derivedOutput txt_file

/-- The message printed by line 112:
`print(f"Failed to convert \x7btxt_file\x7d: \x7be\x7d")`. -/
def failLog (txt_file : Path) (e : PyError) : Path :=
  str "Failed to convert " ++ txt_file ++ str ": " ++ errText e

/-- The `try`/`except` body of the batch loop for one file (lines
100-112): convert, then — when the output directory differs — move the
derived output to the output directory.  Any exception from either step
is the `.error` result (caught and logged by the loop). -/
def batchStep (run : ExtRun) (input_path output_path txt_file : Path)
    (fs : List Path) : Except PyError Path × List Path :=
  match convert_txt_to_inkml run fs txt_file with
  | (.error e, fs1) => (.error e, fs1)
  | (.ok inkml_file, fs1) =>
    if output_path ≠ input_path then
      match os_rename fs1 inkml_file (batchFinalPath output_path txt_file) with
      | .ok fs2 => (.ok (batchFinalPath output_path txt_file), fs2)
      | .error e => (.error e, fs1)
    else
      (.ok inkml_file, fs1)

/-- Prepend a new output path to the accumulated
(outputs, logs, file system) triple. -/
def consOut (x : Path) (t : List Path × List Path × List Path) :
    List Path × List Path × List Path :=
  (x :: t.1, t.2.1, t.2.2)

/-- Prepend a new log line to the accumulated triple. -/
def consLog (x : Path) (t : List Path × List Path × List Path) :
    List Path × List Path × List Path :=
  (t.1, x :: t.2.1, t.2.2)

/-- The `for txt_file in input_path.rglob("*.txt")` loop of lines
97-113: each file is processed independently; a success appends its
output path, a failure appends one log line, and the loop always
continues with the next file. -/
def batchLoop (behav : Path → ExtRun) (input_path output_path : Path) :
    List Path → List Path → List Path × List Path × List Path
  | [], fs => ([], [], fs)
  | txt_file :: rest, fs =>
    match batchStep (behav txt_file) input_path output_path txt_file fs with
    | (.ok out, fs') => consOut out (batchLoop behav input_path output_path rest fs')
    | (.error e, fs') =>
      consLog (failLog txt_file e) (batchLoop behav input_path output_path rest fs')

/-- The result of a batch run: the returned `inkml_files` list, the
failure messages printed, and the final file-system and directory
states. -/
structure BatchResult where
  inkml_files : List Path
  logs : List Path
  fs : List Path
  dirs : List Path
deriving DecidableEq

/-- Lines 82-114 of the source, `InkMLConverter.batch_convert_directory`:
normalize the directories, `mkdir(parents=True, exist_ok=True)` the
output path, enumerate `input_path.rglob("*.txt")` (an oracle `rglob`
reading the post-`mkdir` directory state and the file state, returned
in discovery order), and run the per-file loop.  `behav` gives the
external subprocess's behaviour on each input file. -/
def batch_convert_directory (behav : Path → ExtRun)
    (rglob : List Path → List Path → List Path)
    (input_dir : Path) (output_dir : Option Path)
    (fs dirs : List Path) : BatchResult :=
  let input_path := normPath input_dir
  let output_path := resolvedOutputPath input_dir output_dir
  let dirs1 := mkdirParents output_path dirs
  let files := rglob dirs1 fs
  let t := batchLoop behav input_path output_path files fs
  ⟨t.1, t.2.1, t.2.2, dirs1⟩

-- ## Shared helper lemmas

/-- Stripping the last extension of a path that ends in `.txt` strips
exactly that `.txt`: the dot opening the trailing `.txt` is the last
dot of the whole string. -/
theorem derivedOutput_append_txt (q : Path) :
    derivedOutput (q ++ str ".txt") = q ++ str ".inkml" := by
  rw [show str ".txt" = '.' :: str "txt" from rfl, derivedOutput,
    pyRsplitDotHead_append q (str "txt") (by decide)]

/-- `with_suffix('.inkml')` on a name of the form `stem.txt` with a
nonempty stem replaces the `.txt`. -/
theorem withSuffixInkml_proper (stem : Path) (hs : stem ≠ []) :
    withSuffixInkml (stem ++ str ".txt") = stem ++ str ".inkml" := by
  rw [show str ".txt" = '.' :: str "txt" from rfl]
  simp [withSuffixInkml, splitLastBy_append '.' stem (str "txt") (by decide), hs,
    (by decide : str "txt" ≠ [])]

-- ## Claims

/-- Claim C1: for every valid input path given to single-file
conversion — a path naming a TXT file, i.e. ending in the extension
segment `.txt` — the derived output path equals the input path with
that final extension segment replaced by `.inkml`.  The quantification
`q ++ ".txt"` ranges over exactly the paths ending in `.txt`, with `q`
arbitrary (it may itself contain dots or slashes). -/
theorem convert_output_replaces_final_extension (q : Path) :
    derivedOutput (q ++ str ".txt") = q ++ str ".inkml" :=
  derivedOutput_append_txt q

/-- Witness for C1 at the concrete path `data.v2/a.b.txt` (dots in the
directory name and in the stem). -/
theorem convert_output_replaces_final_extension_witness :
    derivedOutput (str "data.v2/a.b" ++ str ".txt") = str "data.v2/a.b" ++ str ".inkml" :=
  convert_output_replaces_final_extension (str "data.v2/a.b")

/-- Claim C2: a subprocess exit status of zero yields the derived
output path; a nonzero exit status raises the conversion-failure error
whose message is `"Conversion failed: "` followed by the captured
standard-error text — in particular the message contains that captured
text. -/
theorem convert_exit_status_determines_result (run : ExtRun) (fs : List Path)
    (p : Path) :
    (run.returncode = 0 →
      convert_txt_to_inkml run fs p = (.ok (derivedOutput p), run.produces ++ fs)) ∧
    (run.returncode ≠ 0 →
      (convert_txt_to_inkml run fs p).1
          = .error (.conversionFailed (str "Conversion failed: " ++ run.stderr)) ∧
      ∃ pre, str "Conversion failed: " ++ run.stderr = pre ++ run.stderr) := by
  refine ⟨fun h => ?_, fun h => ⟨?_, ⟨str "Conversion failed: ", rfl⟩⟩⟩
  · simp [convert_txt_to_inkml, h]
  · simp [convert_txt_to_inkml, h]

/-- Witness for C2: a zero-status run returns the derived path; a
status-2 run yields the error carrying the captured stderr text. -/
theorem convert_exit_status_determines_result_witness :
    convert_txt_to_inkml ⟨0, [], [], []⟩ [] (str "a.txt")
        = (.ok (derivedOutput (str "a.txt")), [] ++ []) ∧
    (convert_txt_to_inkml ⟨2, [], str "boom", []⟩ [] (str "a.txt")).1
        = .error (.conversionFailed (str "Conversion failed: " ++ str "boom")) :=
  ⟨(convert_exit_status_determines_result ⟨0, [], [], []⟩ [] (str "a.txt")).1 rfl,
   ((convert_exit_status_determines_result ⟨2, [], str "boom", []⟩ [] (str "a.txt")).2
      (by decide)).1⟩

/-- Claim C3: string-content conversion removes its temporary input
file on every exit path — conversion success, conversion failure, and
rename failure alike (the `finally` clause). -/
theorem convert_from_string_removes_temp_file (run : ExtRun)
    (temp_file_path txt_content : Path) (output_filename : Option Path)
    (fs : List Path) :
    temp_file_path
      ∉ (convert_from_string run temp_file_path txt_content output_filename fs).2 :=
  not_mem_removeIfExists temp_file_path _

/-- Witness for C3 at a concrete failing run (nonzero exit status): the
temporary file is gone from the resulting file system. -/
theorem convert_from_string_removes_temp_file_witness :
    str "/tmp/t.txt"
      ∉ (convert_from_string ⟨1, [], str "e", []⟩ (str "/tmp/t.txt") (str "x")
            none []).2 :=
  convert_from_string_removes_temp_file ⟨1, [], str "e", []⟩ (str "/tmp/t.txt")
    (str "x") none []

/-- Claim C5: constructing the orchestrator with a converter path that
does not exist fails with the not-found error before any conversion is
attempted (the constructor never runs the subprocess: no `ExtRun`
appears in its signature), and an omitted path resolves the default
`convert_txt_to_inkml.ts` next to the orchestrator and applies the same
existence check.  A converter path is a nonempty string: Python treats
the empty string as an omitted argument (`converter_script_path or
default`), and as a path the empty string denotes the current
directory, which exists. -/
theorem init_missing_converter_fails (p script_dir : Path) (fs : List Path) :
    (p ≠ [] → p ∉ fs →
      InkMLConverter_init (some p) script_dir fs
        = .error (.fileNotFound (str "Converter script not found: " ++ p))) ∧
    InkMLConverter_init none script_dir fs
      = (if pathJoin (normPath script_dir) (str "convert_txt_to_inkml.ts") ∈ fs then
          .ok (pathJoin (normPath script_dir) (str "convert_txt_to_inkml.ts"))
         else
          .error (.fileNotFound (str "Converter script not found: "
            ++ pathJoin (normPath script_dir) (str "convert_txt_to_inkml.ts")))) := by
  refine ⟨fun hne hnm => ?_, rfl⟩
  simp [InkMLConverter_init, hne, hnm]

/-- Witness for C5: a missing `/nope.ts` script makes construction fail
even though other files exist. -/
theorem init_missing_converter_fails_witness :
    InkMLConverter_init (some (str "/nope.ts")) (str "/app") [str "/app/x.txt"]
      = .error (.fileNotFound (str "Converter script not found: " ++ str "/nope.ts")) :=
  (init_missing_converter_fails (str "/nope.ts") (str "/app") [str "/app/x.txt"]).1
    (by decide) (by decide)

/-- Claim C7: on a zero exit status the returned output path is
computed purely from the input path string — it is `derivedOutput p`
whatever the file system holds, and the result is unchanged under any
other file-system state.  No check that a file exists at the returned
path is performed. -/
theorem convert_does_not_verify_output (run : ExtRun) (fs fs' : List Path)
    (p : Path) (h : run.returncode = 0) :
    (convert_txt_to_inkml run fs p).1 = .ok (derivedOutput p) ∧
    (convert_txt_to_inkml run fs' p).1 = (convert_txt_to_inkml run fs p).1 := by
  simp [convert_txt_to_inkml, h]

/-- Witness for C7: a run that produces no file at all still returns
the derived path, which indeed does not exist afterwards. -/
theorem convert_does_not_verify_output_witness :
    ((convert_txt_to_inkml ⟨0, [], [], []⟩ [] (str "a.txt")).1
        = .ok (derivedOutput (str "a.txt")) ∧
     (convert_txt_to_inkml ⟨0, [], [], []⟩ [str "other"] (str "a.txt")).1
        = (convert_txt_to_inkml ⟨0, [], [], []⟩ [] (str "a.txt")).1) ∧
    derivedOutput (str "a.txt") ∉ (convert_txt_to_inkml ⟨0, [], [], []⟩ [] (str "a.txt")).2 :=
  ⟨convert_does_not_verify_output ⟨0, [], [], []⟩ [] [str "other"] (str "a.txt") rfl,
   by decide⟩

/-- Claim C9: when string-content conversion is called with a
(nonempty) caller-supplied label and the converter behaves as expected
(exit status zero, the derived sibling output written), the returned
path is the temporary directory's path to a file named
`<temp base name>_<label>.inkml` — the label alone never determines the
output name or location, since the temporary file's base name leads the
final name.  Here the temporary file is `tdir/base.txt`. -/
theorem convert_from_string_label_location (run : ExtRun)
    (tdir base label txt_content : Path) (fs : List Path)
    (h0 : run.returncode = 0) (hl : label ≠ [])
    (hp : derivedOutput (tdir ++ '/' :: (base ++ str ".txt")) ∈ run.produces) :
    (convert_from_string run (tdir ++ '/' :: (base ++ str ".txt")) txt_content
        (some label) fs).1
      = .ok (tdir ++ '/' :: (base ++ '_' :: (label ++ str ".inkml"))) ∧
    (('/' : Char) ∉ base → ('/' : Char) ∉ label →
      finalName (tdir ++ '/' :: (base ++ '_' :: (label ++ str ".inkml")))
        = base ++ '_' :: (label ++ str ".inkml")) := by
  constructor
  · have hshape : tdir ++ '/' :: (base ++ str ".txt")
        = (tdir ++ '/' :: base) ++ '.' :: str "txt" := by
      rw [show str ".txt" = '.' :: str "txt" from rfl]; simp
    have hhead : pyRsplitDotHead (tdir ++ '/' :: (base ++ str ".txt"))
        = tdir ++ '/' :: base := by
      rw [hshape]; exact pyRsplitDotHead_append _ _ (by decide)
    have hmem : derivedOutput (tdir ++ '/' :: (base ++ str ".txt"))
        ∈ run.produces ++ (tdir ++ '/' :: (base ++ str ".txt")) :: fs :=
      List.mem_append_left _ hp
    simp [convert_from_string, convert_from_string_core, convert_txt_to_inkml,
      h0, hl, os_rename, hmem, hhead]
  · intro hb hl2
    refine finalName_append tdir _ ?_
    simp only [List.mem_append, List.mem_cons, not_or]
    refine ⟨hb, by decide, hl2, by decide⟩

/-- Witness for C9: converting with temporary file `/tmp/tmpa.txt` and
label `out` returns `/tmp/tmpa_out.inkml`. -/
theorem convert_from_string_label_location_witness :
    (convert_from_string ⟨0, [], [], [str "/tmp/tmpa.inkml"]⟩
        (str "/tmp" ++ '/' :: (str "tmpa" ++ str ".txt")) (str "pts")
        (some (str "out")) []).1
      = .ok (str "/tmp" ++ '/' :: (str "tmpa" ++ '_' :: (str "out" ++ str ".inkml"))) ∧
    finalName (str "/tmp" ++ '/' :: (str "tmpa" ++ '_' :: (str "out" ++ str ".inkml")))
      = str "tmpa" ++ '_' :: (str "out" ++ str ".inkml") := by
  have h := convert_from_string_label_location ⟨0, [], [], [str "/tmp/tmpa.inkml"]⟩
    (str "/tmp") (str "tmpa") (str "out") (str "pts") [] rfl (by decide) (by decide)
  exact ⟨h.1, h.2 (by decide) (by decide)⟩

-- ## Batch-loop lemmas

/-- A file whose subprocess exits nonzero contributes the
conversion-failed error, after the subprocess's writes land. -/
theorem batchStep_of_fail (run : ExtRun) (ip op f : Path) (fs : List Path)
    (h : ¬run.returncode = 0) :
    batchStep run ip op f fs
      = (.error (.conversionFailed (str "Conversion failed: " ++ run.stderr)),
         run.produces ++ fs) := by
  simp [batchStep, convert_txt_to_inkml, h]

/-- A file whose subprocess exits zero and writes the derived sibling
output contributes `batchOutName`: the relocated path when an output
directory is in effect, the derived path otherwise. -/
theorem batchStep_of_ok (run : ExtRun) (ip op f : Path) (fs : List Path)
    (h : run.returncode = 0) (hp : derivedOutput f ∈ run.produces) :
    batchStep run ip op f fs
      = (.ok (batchOutName ip op f),
         if op ≠ ip then
           batchFinalPath op f
             :: (run.produces ++ fs).filter (fun q => decide ¬(q = derivedOutput f))
         else run.produces ++ fs) := by
  have hmem : derivedOutput f ∈ run.produces ++ fs := List.mem_append_left _ hp
  by_cases hop : op = ip
  · simp [batchStep, convert_txt_to_inkml, h, batchOutName, hop]
  · simp [batchStep, convert_txt_to_inkml, h, os_rename, hmem, batchOutName, hop]

/-- The loop never halts early: every discovered file contributes to
exactly one of the two lists. -/
theorem batchLoop_length (behav : Path → ExtRun) (ip op : Path)
    (files : List Path) : ∀ fs : List Path,
    (batchLoop behav ip op files fs).1.length
        + (batchLoop behav ip op files fs).2.1.length
      = files.length := by
  induction files with
  | nil => intro fs; simp [batchLoop]
  | cons f rest ih =>
    intro fs
    rcases hs : batchStep (behav f) ip op f fs with ⟨r, fs'⟩
    rcases r with e | out
    · simp [batchLoop, hs, consLog]
      have := ih fs'
      omega
    · simp [batchLoop, hs, consOut]
      have := ih fs'
      omega

/-- The loop's two result lists, in discovery order: the successful
files' output names and the failing files' log lines, under the
assumption that the external converter writes the expected sibling
output whenever it exits cleanly. -/
theorem batchLoop_split (behav : Path → ExtRun) (ip op : Path)
    (files : List Path) : ∀ fs : List Path,
    (∀ f ∈ files, (behav f).returncode = 0 → derivedOutput f ∈ (behav f).produces) →
    (batchLoop behav ip op files fs).1
        = (files.filter (fun f => decide ((behav f).returncode = 0))).map
            (batchOutName ip op) ∧
    (batchLoop behav ip op files fs).2.1
        = (files.filter (fun f => decide ¬((behav f).returncode = 0))).map
            (fun f => failLog f (.conversionFailed
                (str "Conversion failed: " ++ (behav f).stderr))) := by
  induction files with
  | nil => intro fs _; simp [batchLoop]
  | cons f rest ih =>
    intro fs H
    have Hf := H f (List.mem_cons_self f rest)
    have Hrest : ∀ g ∈ rest, (behav g).returncode = 0
        → derivedOutput g ∈ (behav g).produces :=
      fun g hg => H g (List.mem_cons_of_mem f hg)
    have ih1 : ∀ fs2 : List Path, (batchLoop behav ip op rest fs2).1
        = (rest.filter (fun g => decide ((behav g).returncode = 0))).map
            (batchOutName ip op) :=
      fun fs2 => (ih fs2 Hrest).1
    have ih2 : ∀ fs2 : List Path, (batchLoop behav ip op rest fs2).2.1
        = (rest.filter (fun g => decide ¬((behav g).returncode = 0))).map
            (fun g => failLog g (.conversionFailed
                (str "Conversion failed: " ++ (behav g).stderr))) :=
      fun fs2 => (ih fs2 Hrest).2
    by_cases h0 : (behav f).returncode = 0
    · simp [batchLoop, batchStep_of_ok (behav f) ip op f fs h0 (Hf h0),
        consOut, ih1, ih2, h0]
    · simp [batchLoop, batchStep_of_fail (behav f) ip op f fs h0,
        consLog, ih1, ih2, h0]

/-- The list of files the batch loop iterates over: the `rglob`
enumeration applied to the directory state AFTER the `mkdir` of the
output path, and to the file state. -/
def discoveredFiles (rglob : List Path → List Path → List Path)
    (input_dir : Path) (output_dir : Option Path) (fs dirs : List Path) :
    List Path :=
  rglob (mkdirParents (resolvedOutputPath input_dir output_dir) dirs) fs

/-- Claim C4: over a discovery list containing successes and failures,
batch conversion returns exactly the successful files' output paths in
discovery order, emits one log line per failing file, and never halts
early (every discovered file lands in exactly one of the two lists).
The hypothesis says only that the external converter actually writes
the expected sibling output whenever it exits cleanly, so that the
in-batch relocation finds its source file. -/
theorem batch_convert_isolates_failures (behav : Path → ExtRun)
    (rglob : List Path → List Path → List Path)
    (input_dir : Path) (output_dir : Option Path) (fs dirs : List Path)
    (H : ∀ f ∈ discoveredFiles rglob input_dir output_dir fs dirs,
        (behav f).returncode = 0 → derivedOutput f ∈ (behav f).produces) :
    (batch_convert_directory behav rglob input_dir output_dir fs dirs).inkml_files
      = ((discoveredFiles rglob input_dir output_dir fs dirs).filter
            (fun f => decide ((behav f).returncode = 0))).map
          (batchOutName (normPath input_dir)
            (resolvedOutputPath input_dir output_dir)) ∧
    (batch_convert_directory behav rglob input_dir output_dir fs dirs).logs
      = ((discoveredFiles rglob input_dir output_dir fs dirs).filter
            (fun f => decide ¬((behav f).returncode = 0))).map
          (fun f => failLog f (.conversionFailed
              (str "Conversion failed: " ++ (behav f).stderr))) ∧
    (batch_convert_directory behav rglob input_dir output_dir fs dirs).inkml_files.length
        + (batch_convert_directory behav rglob input_dir output_dir fs dirs).logs.length
      = (discoveredFiles rglob input_dir output_dir fs dirs).length := by
  obtain ⟨h1, h2⟩ := batchLoop_split behav (normPath input_dir)
    (resolvedOutputPath input_dir output_dir)
    (discoveredFiles rglob input_dir output_dir fs dirs) fs H
  exact ⟨h1, h2, batchLoop_length behav (normPath input_dir)
    (resolvedOutputPath input_dir output_dir)
    (discoveredFiles rglob input_dir output_dir fs dirs) fs⟩

/-- The subprocess behaviour used by the C4 witness: `d/b.txt` fails
with status 1, every other file converts cleanly and writes its
derived sibling output. -/
def behavC4 : Path → ExtRun := fun f =>
  if f = str "d/b.txt" then ⟨1, [], str "boom", []⟩
  else ⟨0, [], [], [derivedOutput f]⟩

/-- The discovery list used by the C4 witness: two good files around
one bad one. -/
def filesC4 : List Path := [str "d/a.txt", str "d/b.txt", str "d/c.txt"]

/-- Witness for C4 at a concrete three-file batch (N = 2, M = 1). -/
theorem batch_convert_isolates_failures_witness :
    (batch_convert_directory behavC4 (fun _ _ => filesC4) (str "d") none [] []).inkml_files
      = ((discoveredFiles (fun _ _ => filesC4) (str "d") none [] []).filter
            (fun f => decide ((behavC4 f).returncode = 0))).map
          (batchOutName (normPath (str "d")) (resolvedOutputPath (str "d") none)) ∧
    (batch_convert_directory behavC4 (fun _ _ => filesC4) (str "d") none [] []).logs
      = ((discoveredFiles (fun _ _ => filesC4) (str "d") none [] []).filter
            (fun f => decide ¬((behavC4 f).returncode = 0))).map
          (fun f => failLog f (.conversionFailed
              (str "Conversion failed: " ++ (behavC4 f).stderr))) ∧
    (batch_convert_directory behavC4 (fun _ _ => filesC4) (str "d") none [] []).inkml_files.length
        + (batch_convert_directory behavC4 (fun _ _ => filesC4) (str "d") none [] []).logs.length
      = (discoveredFiles (fun _ _ => filesC4) (str "d") none [] []).length :=
  batch_convert_isolates_failures behavC4 (fun _ _ => filesC4) (str "d") none [] []
    (by decide)

/-- Claim C6: with a truthy output directory distinct from the input
directory, the output directory is among the directories existing after
the run (the `mkdir(parents=True, exist_ok=True)` call), and the
returned list is exactly, per successful file, the relocated path
`output_path / txt_file.with_suffix('.inkml').name` — the target of the
`os.rename` move into the output directory. -/
theorem batch_distinct_output_dir_relocates (behav : Path → ExtRun)
    (rglob : List Path → List Path → List Path)
    (input_dir d : Path) (fs dirs : List Path)
    (hd : d ≠ [])
    (hne : normPath d ≠ normPath input_dir)
    (H : ∀ f ∈ discoveredFiles rglob input_dir (some d) fs dirs,
        (behav f).returncode = 0 → derivedOutput f ∈ (behav f).produces) :
    normPath d ∈ (batch_convert_directory behav rglob input_dir (some d) fs dirs).dirs ∧
    (batch_convert_directory behav rglob input_dir (some d) fs dirs).inkml_files
      = ((discoveredFiles rglob input_dir (some d) fs dirs).filter
            (fun f => decide ((behav f).returncode = 0))).map
          (batchFinalPath (normPath d)) := by
  have hres : resolvedOutputPath input_dir (some d) = normPath d := by
    simp [resolvedOutputPath, hd]
  constructor
  · show normPath d ∈ mkdirParents (resolvedOutputPath input_dir (some d)) dirs
    rw [hres]
    exact List.mem_cons_self _ _
  · have h1 := (batchLoop_split behav (normPath input_dir) (normPath d)
        (discoveredFiles rglob input_dir (some d) fs dirs) fs H).1
    show (batchLoop behav (normPath input_dir) (resolvedOutputPath input_dir (some d))
        (discoveredFiles rglob input_dir (some d) fs dirs) fs).1 = _
    rw [hres, h1]
    simp [batchOutName, hne]

/-- The subprocess behaviour used by the C6 witness: every file
converts cleanly and writes its derived sibling output. -/
def behavC6 : Path → ExtRun := fun f => ⟨0, [], [], [derivedOutput f]⟩

/-- The discovery list used by the C6 witness. -/
def filesC6 : List Path := [str "in/a.txt", str "in/sub/b.txt"]

/-- Witness for C6 at a concrete batch with output directory `out`
distinct from input directory `in`. -/
theorem batch_distinct_output_dir_relocates_witness :
    normPath (str "out")
      ∈ (batch_convert_directory behavC6 (fun _ _ => filesC6) (str "in")
            (some (str "out")) [] []).dirs ∧
    (batch_convert_directory behavC6 (fun _ _ => filesC6) (str "in")
          (some (str "out")) [] []).inkml_files
      = ((discoveredFiles (fun _ _ => filesC6) (str "in") (some (str "out")) [] []).filter
            (fun f => decide ((behavC6 f).returncode = 0))).map
          (batchFinalPath (normPath (str "out"))) :=
  batch_distinct_output_dir_relocates behavC6 (fun _ _ => filesC6) (str "in")
    (str "out") [] [] (by decide) (by decide) (by decide)

/-- Claim C8: when no separate output directory is supplied, the
`mkdir(parents=True, exist_ok=True)` call targets the input directory
itself: after the run the directory state is exactly the input
directory and all its parents added to the prior state, and the file
enumeration the loop processes reads that post-`mkdir` directory state
(the final length equation counts one outcome per file of that
enumeration). -/
theorem batch_default_output_creates_input_dir (behav : Path → ExtRun)
    (rglob : List Path → List Path → List Path)
    (input_dir : Path) (fs dirs : List Path) :
    (batch_convert_directory behav rglob input_dir none fs dirs).dirs
      = mkdirParents (normPath input_dir) dirs ∧
    normPath input_dir
      ∈ (batch_convert_directory behav rglob input_dir none fs dirs).dirs ∧
    (∀ a ∈ ancestors (normPath input_dir),
        a ∈ (batch_convert_directory behav rglob input_dir none fs dirs).dirs) ∧
    (batch_convert_directory behav rglob input_dir none fs dirs).inkml_files.length
        + (batch_convert_directory behav rglob input_dir none fs dirs).logs.length
      = (rglob (mkdirParents (normPath input_dir) dirs) fs).length := by
  refine ⟨rfl, List.mem_cons_self _ _, ?_, ?_⟩
  · intro a ha
    show a ∈ mkdirParents (normPath input_dir) dirs
    simp [mkdirParents, ha]
  · exact batchLoop_length behav (normPath input_dir)
      (resolvedOutputPath input_dir none)
      (rglob (mkdirParents (normPath input_dir) dirs) fs) fs

/-- Witness for C8: batching over `q/r` with no output directory leaves
both `q/r` and its parent `q` in the directory state. -/
theorem batch_default_output_creates_input_dir_witness :
    normPath (str "q/r")
      ∈ (batch_convert_directory (fun _ => ⟨0, [], [], []⟩) (fun _ _ => [])
            (str "q/r") none [] []).dirs ∧
    str "q"
      ∈ (batch_convert_directory (fun _ => ⟨0, [], [], []⟩) (fun _ _ => [])
            (str "q/r") none [] []).dirs :=
  ⟨(batch_default_output_creates_input_dir (fun _ => ⟨0, [], [], []⟩)
      (fun _ _ => []) (str "q/r") [] []).2.1,
   (batch_default_output_creates_input_dir (fun _ => ⟨0, [], [], []⟩)
      (fun _ _ => []) (str "q/r") [] []).2.2.1 (str "q") (by decide)⟩

/-- Claim C10 fails as stated: for the path `dir/.txt` — whose final
name component `.txt` does end in `.txt` — the rsplit-based derivation
of `convert_txt_to_inkml` yields the name `.inkml`, while the
`with_suffix('.inkml')` derivation of `batch_convert_directory` yields
`.txt.inkml` (pathlib treats a leading-dot-only name as having no
suffix and appends instead of replacing). -/
theorem name_derivations_disagree_on_bare_txt :
    finalName (str "dir/.txt") = str ".txt" ∧
    finalName (derivedOutput (str "dir/.txt"))
      ≠ withSuffixInkml (finalName (str "dir/.txt")) := by decide

/-- Claim C10 as amended: the two output-name derivations agree for
every path whose final name component ends in `.txt` with a NONEMPTY
stem before it (i.e. the component is not the bare `.txt`). -/
theorem name_derivations_agree_on_nonempty_stem (p stem : Path)
    (hs : stem ≠ []) (h : finalName p = stem ++ str ".txt") :
    finalName (derivedOutput p) = withSuffixInkml (finalName p) := by
  rcases hsp : splitLastBy '/' p with _ | ⟨d, n⟩
  · have hnp : ('/' : Char) ∉ p := not_mem_of_splitLastBy_none '/' p hsp
    have hfp : finalName p = p := finalName_of_no_slash p hnp
    rw [hfp] at h
    subst h
    rw [hfp, derivedOutput_append_txt, withSuffixInkml_proper stem hs]
    apply finalName_of_no_slash
    simp only [List.mem_append, not_or] at hnp
    simp only [List.mem_append, not_or]
    exact ⟨hnp.1, by decide⟩
  · obtain ⟨hpd, hnn⟩ := splitLastBy_eq_some '/' p d n hsp
    have hfp : finalName p = n := by simp [finalName, hsp]
    rw [hfp] at h
    subst h
    subst hpd
    rw [hfp, withSuffixInkml_proper stem hs]
    have hshape : d ++ '/' :: (stem ++ str ".txt")
        = (d ++ '/' :: stem) ++ '.' :: str "txt" := by
      rw [show str ".txt" = '.' :: str "txt" from rfl]; simp
    rw [hshape, derivedOutput, pyRsplitDotHead_append _ _ (by decide)]
    have hassoc : (d ++ '/' :: stem) ++ str ".inkml"
        = d ++ '/' :: (stem ++ str ".inkml") := by simp
    rw [hassoc]
    apply finalName_append
    simp only [List.mem_append, not_or] at hnn
    simp only [List.mem_append, not_or]
    exact ⟨hnn.1, by decide⟩

/-- Witness for the amended C10 at the path `d/a.txt`. -/
theorem name_derivations_agree_on_nonempty_stem_witness :
    finalName (derivedOutput (str "d/a.txt"))
      = withSuffixInkml (finalName (str "d/a.txt")) :=
  name_derivations_agree_on_nonempty_stem (str "d/a.txt") (str "a")
    (by decide) (by decide)

end InkMLWrapper
